import Mathlib

/-!
Shallow embedding of the matchmaking / session-relay server in `server.js`
(repository `fps_game`).  The server is a single-threaded event loop: each
inbound socket event (and each timer firing) runs to completion before the
next.  We model the mutable server state (`waitingPlayers`, `activeGames`,
the socket registry with its per-socket `data`, and socket.io room
membership) as a record, and every handler as a pure function
`ServerState → ServerState × Out`, where `Out` is the ordered list of
messages emitted during the handler, each tagged with its recipient
socket id.

Modelling conventions (all divergences from the JavaScript noted here):
* socket ids and game ids are `Nat`; `generateGameId` draws from
  `Math.random()` in the source, which we model as a fresh counter
  (`nextGameId`) — claims depend only on ids being fresh, never on their
  spelling;
* client-supplied numbers (positions, rotations, damage, health) are `Int`;
  an unset (`undefined`) field is `none`, and since in JavaScript
  `undefined - damage` is `NaN`, which stays `NaN` under the clamp and is
  neither `< 0` nor `<= 0`, a `none` health stays `none` under a hit and
  fails the death test — exactly the `NaN` behaviour;
* `socket.data` always exists on a live socket (socket.io initialises it to
  `{}`), so the JavaScript guards `if (socket.data)` / `targetSocket.data`
  are true whenever the registry lookup succeeds;
* handlers only ever fire for connected sockets, so `step` guards each
  socket event on registry membership;
* by the time the `disconnect` handler runs, socket.io has already removed
  the socket from the registry and from every room, so `stepDisconnect`
  performs those removals first;
* the `setTimeout` callback scheduled in `matchPlayers` closes over the
  game id; its later firing is modelled as an explicit `countdownFire`
  event carrying that id.
-/

namespace FpsRelay

abbrev SocketId := Nat
abbrev GameId := Nat

/-- Team labels `'A'` / `'B'` from `server.js`. -/
inductive Team where
  | A
  | B
deriving DecidableEq, Repr

/-- The mutable `socket.data` record: `team`, `position`, `rotation`,
`health`.  Every field starts `undefined` (`none`). -/
structure SocketData where
  team : Option Team
  position : Option Int
  rotation : Option Int
  health : Option Int
deriving DecidableEq, Repr

/-- A freshly connected socket's `data` object (`{}`). -/
def SocketData.init : SocketData := ⟨none, none, none, none⟩

/-- Game lifecycle states `'starting'` / `'active'` from `server.js`. -/
inductive GState where
  | starting
  | active
deriving DecidableEq, Repr

/-- One entry of `activeGames`: `{ id, players, state }`.  `players` holds
socket identities (the JavaScript stores the socket objects themselves and
compares them by identity). -/
structure Game where
  gid : GameId
  players : List SocketId
  gstate : GState
deriving DecidableEq, Repr

/-- The whole server state: the `waitingPlayers` array, the `activeGames`
map (insertion ordered), the socket registry `io.sockets.sockets`, the
room-membership map `io.sockets.adapter.rooms`, and the fresh-id counter
standing in for `generateGameId`. -/
structure ServerState where
  waitingPlayers : List SocketId
  activeGames : List Game
  sockets : List (SocketId × SocketData)
  rooms : List (GameId × List SocketId)
  nextGameId : GameId
deriving DecidableEq, Repr

/-- The empty server state at process start. -/
def initState : ServerState := ⟨[], [], [], [], 0⟩

/-- Association-list lookup (first match), modelling `Map.get`. -/
def alookup {β : Type} (k : Nat) : List (Nat × β) → Option β
  | [] => none
  | (k2, v) :: rest => if k2 = k then some v else alookup k rest

/-- Association-list in-place update of the first entry with key `k`
(no-op when the key is absent). -/
def aupdate {β : Type} (k : Nat) (f : β → β) : List (Nat × β) → List (Nat × β)
  | [] => []
  | (k2, v) :: rest =>
      if k2 = k then (k2, f v) :: rest else (k2, v) :: aupdate k f rest

/-- Messages the server emits, one constructor per server→client event of
`server.js`. -/
inductive SMsg where
  | matchmakingStatus (position playersWaiting : Nat)
  | gameMatched (gameId : GameId) (countdown : Nat) (players : List (SocketId × Team))
  | gameStart
  | playerInitialized (id : SocketId) (position rotation : Int) (health : Int)
      (team : Option Team)
  | currentPlayers (players : List (SocketId × SocketData))
  | playerJoined (id : SocketId) (position rotation : Int) (health : Int)
      (team : Option Team)
  | playerMoved (id : SocketId) (position rotation : Int)
  | playerShootFwd (id : SocketId) (position direction velocity : Int)
  | healthUpdate (id : SocketId) (health : Option Int)
  | playerDeath (id killerId : SocketId)
  | playerLeft (id : SocketId)
  | gameEnded (reason : String) (winnerId : SocketId)
deriving DecidableEq, Repr

/-- Emitted messages of one handler invocation, in order, tagged with the
recipient socket. -/
abbrev Out := List (SocketId × SMsg)

/-- Current member list of a room (`io.sockets.adapter.rooms.get(gid)`,
with a missing room read as empty). -/
def roomMembers (st : ServerState) (gid : GameId) : List SocketId :=
  (alookup gid st.rooms).getD []

/-- `socket.join(gid)`: add `sid` to room `gid` (rooms are sets — a second
join of the same socket is a no-op), creating the room when absent. -/
def roomJoin (gid : GameId) (sid : SocketId) :
    List (GameId × List SocketId) → List (GameId × List SocketId)
  | [] => [(gid, [sid])]
  | (g, ms) :: rest =>
      if g = gid then (g, if sid ∈ ms then ms else ms ++ [sid]) :: rest
      else (g, ms) :: roomJoin gid sid rest

/-- First game of `activeGames` (iteration order) whose `players` array
contains `sid` — the `for (const gameId in activeGames)` search loops. -/
def findGameContaining (games : List Game) (sid : SocketId) : Option Game :=
  games.find? (fun g => decide (sid ∈ g.players))

/-- `activeGames[gid]` lookup. -/
def findGame (games : List Game) (gid : GameId) : Option Game :=
  games.find? (fun g => decide (g.gid = gid))

/-- Zero-based index of the first occurrence of `sid`
(`waitingPlayers.indexOf(socket)`; only used on present elements). -/
def posOf (sid : SocketId) : List SocketId → Nat
  | [] => 0
  | x :: rest => if x = sid then 0 else posOf sid rest + 1

/-- `matchPlayers()` from `server.js`: when at least two sockets wait,
shift the two earliest, create one game in state `starting`, join both to
the game's room, and emit `gameMatched` (first player team `A`, second
team `B`, countdown 5) to the room. -/
def matchPlayers (st : ServerState) : ServerState × Out :=
  match st.waitingPlayers with
  | p1 :: p2 :: rest =>
      let gid := st.nextGameId
      let game : Game := ⟨gid, [p1, p2], GState.starting⟩
      let rooms1 := roomJoin gid p2 (roomJoin gid p1 st.rooms)
      let st1 : ServerState :=
        { st with
            waitingPlayers := rest
            activeGames := st.activeGames ++ [game]
            rooms := rooms1
            nextGameId := gid + 1 }
      (st1, (roomMembers st1 gid).map
        (fun m => (m, SMsg.gameMatched gid 5 [(p1, Team.A), (p2, Team.B)])))
  | _ => (st, [])

/-- The `joinMatchmaking` handler: store a provisional team by queue-length
parity, push the sender, report `matchmakingStatus` (1-based first index,
current length), then call `matchPlayers`. -/
def stepJoinMatchmaking (st : ServerState) (sid : SocketId) : ServerState × Out :=
  let team := if st.waitingPlayers.length % 2 = 0 then Team.A else Team.B
  let st1 : ServerState :=
    { st with
        sockets := aupdate sid (fun d => { d with team := some team }) st.sockets
        waitingPlayers := st.waitingPlayers ++ [sid] }
  let statusMsg : SocketId × SMsg :=
    (sid, SMsg.matchmakingStatus (posOf sid st1.waitingPlayers + 1)
            st1.waitingPlayers.length)
  let p := matchPlayers st1
  (p.1, statusMsg :: p.2)

/-- The `cancelMatchmaking` handler: splice out the first occurrence of the
sender, if present. -/
def stepCancel (st : ServerState) (sid : SocketId) : ServerState :=
  { st with waitingPlayers := st.waitingPlayers.erase sid }

/-- The `playerJoin` handler: only acts when the sender is in some game;
stores the reported position/rotation, sets health to 100, replies
`playerInitialized` and a `currentPlayers` snapshot of the other room
members that have already reported a position, and broadcasts
`playerJoined` to the rest of the room. -/
def stepPlayerJoin (st : ServerState) (sid : SocketId) (pos rot : Int) :
    ServerState × Out :=
  match findGameContaining st.activeGames sid with
  | none => (st, [])
  | some g =>
      let d := (alookup sid st.sockets).getD SocketData.init
      let st1 : ServerState :=
        { st with
            sockets := aupdate sid
              (fun d0 => { d0 with
                  position := some pos, rotation := some rot,
                  health := some 100 }) st.sockets }
      let others := (roomMembers st1 g.gid).filter (fun m => decide (m ≠ sid))
      let snapshot := others.filterMap (fun pid =>
        match alookup pid st1.sockets with
        | some pd => if pd.position.isSome then some (pid, pd) else none
        | none => none)
      (st1,
        (sid, SMsg.playerInitialized sid pos rot 100 d.team) ::
        (sid, SMsg.currentPlayers snapshot) ::
        others.map (fun m => (m, SMsg.playerJoined sid pos rot 100 d.team)))

/-- The `playerMove` handler: overwrite the sender's stored position and
rotation (the `if (socket.data)` guard is always true for a live socket),
then broadcast `playerMoved` to the rest of the sender's game room, if the
sender is in a game. -/
def stepPlayerMove (st : ServerState) (sid : SocketId) (pos rot : Int) :
    ServerState × Out :=
  let st1 : ServerState :=
    { st with
        sockets := aupdate sid
          (fun d0 => { d0 with position := some pos, rotation := some rot })
          st.sockets }
  match findGameContaining st1.activeGames sid with
  | none => (st1, [])
  | some g =>
      let others := (roomMembers st1 g.gid).filter (fun m => decide (m ≠ sid))
      (st1, others.map (fun m => (m, SMsg.playerMoved sid pos rot)))

/-- The `playerShoot` handler: stateless relay of the arrow data to the
rest of the sender's game room, if the sender is in a game. -/
def stepPlayerShoot (st : ServerState) (sid : SocketId) (pos dir vel : Int) :
    ServerState × Out :=
  match findGameContaining st.activeGames sid with
  | none => (st, [])
  | some g =>
      let others := (roomMembers st g.gid).filter (fun m => decide (m ≠ sid))
      (st, others.map (fun m => (m, SMsg.playerShootFwd sid pos dir vel)))

/-- `targetSocket.data.health -= damage` followed by the clamp
`if (health < 0) health = 0`.  A `none` (undefined / NaN) health stays
`none`: `NaN - damage` is `NaN` and `NaN < 0` is false. -/
def applyDamage (h : Option Int) (damage : Int) : Option Int :=
  match h with
  | none => none
  | some hv => some (if hv - damage < 0 then 0 else hv - damage)

/-- The JavaScript death test `targetSocket.data.health <= 0`
(`NaN <= 0` is false). -/
def healthLEZ (h : Option Int) : Bool :=
  match h with
  | none => false
  | some hv => decide (hv ≤ 0)

/-- The `playerHit` handler: look the target up in the global socket
registry (not the sender's session!), mutate its health, then — only if
the *sender* is in some game — broadcast `healthUpdate` and, when the new
health passes `<= 0`, `playerDeath` to that game's room. -/
def stepPlayerHit (st : ServerState) (sid targetId : SocketId) (damage : Int) :
    ServerState × Out :=
  match alookup targetId st.sockets with
  | none => (st, [])
  | some td =>
      let newHealth := applyDamage td.health damage
      let st1 : ServerState :=
        { st with
            sockets := aupdate targetId (fun d0 => { d0 with health := newHealth })
              st.sockets }
      match findGameContaining st1.activeGames sid with
      | none => (st1, [])
      | some g =>
          let members := roomMembers st1 g.gid
          (st1,
            members.map (fun m => (m, SMsg.healthUpdate targetId newHealth)) ++
            (if healthLEZ newHealth then
              members.map (fun m => (m, SMsg.playerDeath targetId sid))
            else []))

/-- The per-game body of the `disconnect` handler's loop over
`activeGames`: for each game whose `players` contains the leaver, emit
`playerLeft` to the rest of the room, splice the leaver out, then delete
the game when nobody remains or emit `gameEnded` to the room when exactly
one player remains.  `rooms` is the room map after socket.io already
removed the leaver from every room. -/
def disconnectGames (sid : SocketId) (rooms : List (GameId × List SocketId)) :
    List Game → List Game × Out
  | [] => ([], [])
  | g :: gs =>
      let tail := disconnectGames sid rooms gs
      if sid ∈ g.players then
        let members := (alookup g.gid rooms).getD []
        let leftMsgs := (members.filter (fun m => decide (m ≠ sid))).map
          (fun m => (m, SMsg.playerLeft sid))
        let players1 := g.players.erase sid
        if players1.isEmpty then
          (tail.1, leftMsgs ++ tail.2)
        else
          let endMsgs :=
            if players1.length = 1 then
              members.map (fun m => (m, SMsg.gameEnded "opponent_left" players1.headI))
            else []
          ({ g with players := players1 } :: tail.1, leftMsgs ++ endMsgs ++ tail.2)
      else
        (g :: tail.1, tail.2)

/-- The `disconnect` handler.  Socket.io removes the socket from the
registry and from every room before the handler body runs; the body then
splices the socket out of `waitingPlayers` and cleans up every game it was
in. -/
def stepDisconnect (st : ServerState) (sid : SocketId) : ServerState × Out :=
  let rooms1 := st.rooms.map (fun p => (p.1, p.2.filter (fun m => decide (m ≠ sid))))
  let sockets1 := st.sockets.filter (fun p => decide (p.1 ≠ sid))
  let queue1 := st.waitingPlayers.erase sid
  let res := disconnectGames sid rooms1 st.activeGames
  (⟨queue1, res.1, sockets1, rooms1, st.nextGameId⟩, res.2)

/-- The deferred `setTimeout` callback of `matchPlayers`: if the game still
exists, set its state to `active` and emit `gameStart` to its room;
otherwise do nothing. -/
def stepCountdown (st : ServerState) (gid : GameId) : ServerState × Out :=
  match findGame st.activeGames gid with
  | none => (st, [])
  | some _ =>
      let st1 : ServerState :=
        { st with
            activeGames := st.activeGames.map
              (fun g => if g.gid = gid then { g with gstate := GState.active } else g) }
      (st1, (roomMembers st1 gid).map (fun m => (m, SMsg.gameStart)))

/-- Inbound events: one per client→server socket event, plus `connect`
(transport-level) and `countdownFire` (the timer scheduled by
`matchPlayers` firing for a given game id). -/
inductive Event where
  | connect (sid : SocketId)
  | joinMatchmaking (sid : SocketId)
  | cancelMatchmaking (sid : SocketId)
  | playerJoin (sid : SocketId) (position rotation : Int)
  | playerMove (sid : SocketId) (position rotation : Int)
  | playerShoot (sid : SocketId) (position direction velocity : Int)
  | playerHit (sid : SocketId) (targetId : SocketId) (damage : Int)
  | disconnect (sid : SocketId)
  | countdownFire (gid : GameId)
deriving DecidableEq, Repr

/-- `sid` is a live socket (present in `io.sockets.sockets`). -/
def connected (st : ServerState) (sid : SocketId) : Bool :=
  (alookup sid st.sockets).isSome

/-- One event-loop turn.  Socket events only fire for connected sockets;
`connect` registers a fresh socket with empty `data`. -/
def step (st : ServerState) (e : Event) : ServerState × Out :=
  match e with
  | Event.connect sid =>
      (if connected st sid then st
       else { st with sockets := st.sockets ++ [(sid, SocketData.init)] }, [])
  | Event.joinMatchmaking sid =>
      if connected st sid then stepJoinMatchmaking st sid else (st, [])
  | Event.cancelMatchmaking sid =>
      if connected st sid then (stepCancel st sid, []) else (st, [])
  | Event.playerJoin sid p r =>
      if connected st sid then stepPlayerJoin st sid p r else (st, [])
  | Event.playerMove sid p r =>
      if connected st sid then stepPlayerMove st sid p r else (st, [])
  | Event.playerShoot sid p d v =>
      if connected st sid then stepPlayerShoot st sid p d v else (st, [])
  | Event.playerHit sid t dmg =>
      if connected st sid then stepPlayerHit st sid t dmg else (st, [])
  | Event.disconnect sid =>
      if connected st sid then stepDisconnect st sid else (st, [])
  | Event.countdownFire gid => stepCountdown st gid

/-- Run a list of events, discarding outputs. -/
def applyEvents (st : ServerState) (evs : List Event) : ServerState :=
  evs.foldl (fun s e => (step s e).1) st

/-- The stored health of socket `sid` (outer `none`: no such socket). -/
def healthOf (st : ServerState) (sid : SocketId) : Option (Option Int) :=
  (alookup sid st.sockets).map SocketData.health

/-- The stored position of socket `sid` (outer `none`: no such socket). -/
def positionOf (st : ServerState) (sid : SocketId) : Option (Option Int) :=
  (alookup sid st.sockets).map SocketData.position

/-- The stored team of socket `sid` (as on the socket's `data`;
`none` when the socket is absent or the team unset). -/
def teamOf (st : ServerState) (sid : SocketId) : Option Team :=
  ((alookup sid st.sockets).getD SocketData.init).team

/-- Consecutive pairs of a list, in order: `pairUp [a,b,c,d,e] =
[[a,b],[c,d]]`.  This is the specification's words for FIFO pairing ("the
Nth and (N+1)th enqueued, N odd, are always paired together"), to be
compared with what the queue implementation produces. -/
def pairUp {α : Type} : List α → List (List α)
  | a :: b :: rest => [a, b] :: pairUp rest
  | _ => []

/-- Recogniser for `gameEnded` messages. -/
def isGameEnded (m : SocketId × SMsg) : Bool :=
  match m.2 with
  | SMsg.gameEnded _ _ => true
  | _ => false

/-- Number of active games whose `players` array contains `sid`. -/
def SessionCount (st : ServerState) (sid : SocketId) : Nat :=
  st.activeGames.countP (fun g => decide (sid ∈ g.players))

/-- The invariant of claim C6: nobody is queued twice, nobody is both
queued and in a session, nobody is in two sessions. -/
def QueueSessionInv (st : ServerState) : Prop :=
  st.waitingPlayers.Nodup ∧
  (∀ sid ∈ st.waitingPlayers, ∀ g ∈ st.activeGames, sid ∉ g.players) ∧
  (∀ sid : SocketId, SessionCount st sid ≤ 1)

/-- Side condition under which the C6 invariant is actually preserved: a
`joinMatchmaking` only from a connection that is neither queued nor in a
session (the code performs no such check itself). -/
def JoinAllowed (st : ServerState) : Event → Prop
  | Event.joinMatchmaking sid =>
      sid ∉ st.waitingPlayers ∧ ∀ g ∈ st.activeGames, sid ∉ g.players
  | _ => True

/-- The event alphabet of the matchmaking phase (claim C9's "interleavings
of enqueue and cancel/disconnect events before pairing"). -/
def LobbyEvent : Event → Prop
  | Event.connect _ => True
  | Event.joinMatchmaking _ => True
  | Event.cancelMatchmaking _ => True
  | Event.disconnect _ => True
  | _ => False

/-- Invariant driving claim C9: since `matchPlayers` drains the queue
after every enqueue, at most one connection ever waits between handlers,
and a sole waiter is connected and carries the provisional label `A`
(it was pushed at even queue length 0). -/
def Inv9 (st : ServerState) : Prop :=
  st.waitingPlayers.length ≤ 1 ∧
  ∀ a : SocketId, st.waitingPlayers = [a] →
    teamOf st a = some Team.A ∧ connected st a = true

/-- Two connections matched into game 0 and both joined with state
(health 100 each). -/
def baseDuel : List Event :=
  [Event.connect 1, Event.connect 2, Event.joinMatchmaking 1,
   Event.joinMatchmaking 2, Event.playerJoin 1 0 0, Event.playerJoin 2 0 0]

/-- The server state after `baseDuel`. -/
def duelState : ServerState := applyEvents initState baseDuel

/-- `duelState` after a 100-damage hit by 1 on 2: player 2 is stored at
health 0 and one `playerDeath` has already been broadcast. -/
def duelDead : ServerState :=
  applyEvents initState (baseDuel ++ [Event.playerHit 1 2 100])

/-- Two separate sessions, `{1,2}` (game 0) and `{3,4}` (game 1), all four
players joined with state. -/
def twoDuels : List Event :=
  [Event.connect 1, Event.connect 2, Event.connect 3, Event.connect 4,
   Event.joinMatchmaking 1, Event.joinMatchmaking 2,
   Event.joinMatchmaking 3, Event.joinMatchmaking 4,
   Event.playerJoin 1 0 0, Event.playerJoin 2 0 0,
   Event.playerJoin 3 0 0, Event.playerJoin 4 0 0]

/-- The server state after `twoDuels`. -/
def twoDuelsState : ServerState := applyEvents initState twoDuels

/-- Connection 1 re-enters matchmaking while already in session 0 with
connection 2. -/
def dupJoinTrace : List Event :=
  [Event.connect 1, Event.connect 2, Event.joinMatchmaking 1,
   Event.joinMatchmaking 2, Event.joinMatchmaking 1]

/-- Connection 1 alone in the queue, about to enqueue a second time. -/
def selfPairBase : ServerState :=
  applyEvents initState [Event.connect 1, Event.joinMatchmaking 1]

/-- Two connected sockets, neither queued nor in any session. -/
def lonePair : ServerState :=
  applyEvents initState [Event.connect 7, Event.connect 8]

/-- Four connected sockets, none queued, no sessions. -/
def fourConn : ServerState :=
  applyEvents initState
    [Event.connect 5, Event.connect 6, Event.connect 9, Event.connect 12]

/-- Two connected sockets with connection 1 waiting alone in the queue. -/
def twoConnOneQueued : ServerState :=
  applyEvents initState [Event.connect 1, Event.connect 2, Event.joinMatchmaking 1]

/-! Association-list lemmas. -/

theorem alookup_aupdate_self {β : Type} (k : Nat) (f : β → β) (l : List (Nat × β)) :
    alookup k (aupdate k f l) = (alookup k l).map f := by
  induction l with
  | nil => simp [alookup, aupdate]
  | cons p rest ih =>
      obtain ⟨k2, v⟩ := p
      by_cases h : k2 = k
      · simp [alookup, aupdate, h]
      · simp [alookup, aupdate, h, ih]

theorem alookup_aupdate_ne {β : Type} (k k2 : Nat) (f : β → β) (l : List (Nat × β))
    (h : k2 ≠ k) : alookup k (aupdate k2 f l) = alookup k l := by
  induction l with
  | nil => simp [alookup, aupdate]
  | cons p rest ih =>
      obtain ⟨k3, v⟩ := p
      by_cases h3 : k3 = k2
      · subst h3
        simp [alookup, aupdate, h]
      · by_cases h4 : k3 = k
        · simp [alookup, aupdate, h3, h4, Ne.symm h]
        · simp [alookup, aupdate, h3, h4, ih]

theorem isSome_alookup_aupdate {β : Type} (k k2 : Nat) (f : β → β)
    (l : List (Nat × β)) :
    (alookup k (aupdate k2 f l)).isSome = (alookup k l).isSome := by
  by_cases h : k2 = k
  · subst h
    rw [alookup_aupdate_self]
    cases alookup k2 l <;> simp
  · rw [alookup_aupdate_ne _ _ _ _ h]

theorem alookup_append {β : Type} (k : Nat) (l l2 : List (Nat × β)) :
    alookup k (l ++ l2) =
      (match alookup k l with
        | some v => some v
        | none => alookup k l2) := by
  induction l with
  | nil => simp [alookup]
  | cons p rest ih =>
      obtain ⟨k2, v⟩ := p
      by_cases h : k2 = k
      · simp [alookup, h]
      · simp [alookup, h, ih]

theorem alookup_map_snd {β γ : Type} (k : Nat) (f : β → γ) (l : List (Nat × β)) :
    alookup k (l.map (fun p => (p.1, f p.2))) = (alookup k l).map f := by
  induction l with
  | nil => simp [alookup]
  | cons p rest ih =>
      obtain ⟨k2, v⟩ := p
      by_cases h : k2 = k
      · simp [alookup, h]
      · simp [alookup, h, ih]

theorem alookup_filter_ne {β : Type} (k sid : Nat) (l : List (Nat × β)) (h : k ≠ sid) :
    alookup k (l.filter (fun p => decide (p.1 ≠ sid))) = alookup k l := by
  simp only [decide_not]
  induction l with
  | nil => simp [alookup]
  | cons p rest ih =>
      obtain ⟨k2, v⟩ := p
      by_cases h2 : k2 = sid
      · subst h2
        have hk : ¬(k2 = k) := fun hk2 => h hk2.symm
        simp [alookup, List.filter_cons, hk, ih]
      · by_cases h3 : k2 = k
        · subst h3
          simp [alookup, List.filter_cons, h2, h]
        · simp [alookup, List.filter_cons, h2, h3, ih]

theorem findGame_map_setActive (l : List Game) (gid : GameId) :
    findGame
        (l.map (fun g => if g.gid = gid then { g with gstate := GState.active } else g))
        gid
      = (findGame l gid).map (fun g => { g with gstate := GState.active }) := by
  induction l with
  | nil => simp [findGame]
  | cons g gs ih =>
      by_cases h : g.gid = gid
      · simp [findGame, List.find?, h]
      · simp [findGame, List.find?, h] at ih ⊢
        exact ih

/-! Claim C8: the deferred countdown transition. -/

/-- C8 (amended): the deferred starting-to-active transition fires exactly
when the session still exists at countdown expiry: if the game id is gone
the firing is a silent no-op (no state change, no `gameStart`); if the
session still exists — which it does even when one of its two players left
during the countdown, since teardown only removes a game once *all* its
players have gone — its state is set to `active` and `gameStart` is
emitted to its room. -/
theorem C8_countdown_checks_existence (st : ServerState) (gid : GameId) :
    (findGame st.activeGames gid = none →
        step st (Event.countdownFire gid) = (st, [])) ∧
    (∀ g, findGame st.activeGames gid = some g →
        findGame (step st (Event.countdownFire gid)).1.activeGames gid
            = some { g with gstate := GState.active } ∧
        (step st (Event.countdownFire gid)).2
            = (roomMembers st gid).map (fun m => (m, SMsg.gameStart))) := by
  constructor
  · intro h
    simp [step, stepCountdown, h]
  · intro g h
    constructor
    · simp [step, stepCountdown, h, findGame_map_setActive]
    · simp [step, stepCountdown, h, roomMembers]

/-- Witness for C8: in the two-player session of `duelState` the timer for
an unknown game id 5 is skipped, while the timer for the live game 0
broadcasts `gameStart` to both members. -/
theorem C8_countdown_checks_existence_witness :
    step duelState (Event.countdownFire 5) = (duelState, []) ∧
    (step duelState (Event.countdownFire 0)).2
        = [(1, SMsg.gameStart), (2, SMsg.gameStart)] := by
  refine ⟨(C8_countdown_checks_existence duelState 5).1 (by decide), ?_⟩
  have h := ((C8_countdown_checks_existence duelState 0).2
      ⟨0, [1, 2], GState.starting⟩ (by decide)).2
  exact h.trans (by decide)

/-- Counterexample to C8 as stated: player 1 leaves the two-player session
during the countdown, yet the session has *not* been torn down, so the
deferred transition is not skipped and `gameStart` is still emitted (to
the remaining player 2). -/
theorem C8_counterexample :
    findGame (applyEvents initState (baseDuel ++ [Event.disconnect 1])).activeGames 0
        ≠ none ∧
    (step (applyEvents initState (baseDuel ++ [Event.disconnect 1]))
        (Event.countdownFire 0)).2 = [(2, SMsg.gameStart)] := by decide

/-! Claim C7: health bounds. -/

/-- C7 (amended): the hit update clamps only at the floor: every clamped
result is ≥ 0, and for *nonnegative* damage a health inside [0, 100] stays
inside [0, 100] and a target already at 0 stays exactly at 0; `playerJoin`
by a session member sets the stored health to exactly 100.  The claimed
upper bound does not survive client-supplied negative damage (see the
counterexample). -/
theorem C7_health_floor_clamp :
    (∀ h d h2 : Int, applyDamage (some h) d = some h2 → 0 ≤ h2) ∧
    (∀ h d h2 : Int, 0 ≤ d → 0 ≤ h → h ≤ 100 →
        applyDamage (some h) d = some h2 → 0 ≤ h2 ∧ h2 ≤ 100) ∧
    (∀ d : Int, 0 ≤ d → applyDamage (some 0) d = some 0) ∧
    (∀ (st : ServerState) (sid : SocketId) (pos rot : Int),
        connected st sid = true →
        findGameContaining st.activeGames sid ≠ none →
        healthOf (step st (Event.playerJoin sid pos rot)).1 sid = some (some 100)) := by
  refine ⟨?_, ?_, ?_, ?_⟩
  · intro h d h2 he
    simp [applyDamage] at he
    split at he <;> omega
  · intro h d h2 hd h0 h100 he
    simp [applyDamage] at he
    split at he <;> omega
  · intro d hd
    simp [applyDamage]
    omega
  · intro st sid pos rot hc hg
    obtain ⟨g, hgg⟩ := Option.ne_none_iff_exists'.mp hg
    obtain ⟨dd, hd⟩ := Option.isSome_iff_exists.mp hc
    simp [step, hc, stepPlayerJoin, hgg, healthOf, alookup_aupdate_self, hd]

/-- Witness for C7: a 60-damage hit on 100 health lands at 40 inside the
bounds, a hit on a dead target keeps health 0, and a `playerJoin` by a
session member stores health 100. -/
theorem C7_health_floor_clamp_witness :
    (0 : Int) ≤ 40 ∧ ((0 : Int) ≤ 40 ∧ (40 : Int) ≤ 100) ∧
    applyDamage (some 0) 25 = some 0 ∧
    healthOf (step duelState (Event.playerJoin 1 3 4)).1 1 = some (some 100) :=
  ⟨C7_health_floor_clamp.1 100 60 40 (by decide),
   C7_health_floor_clamp.2.1 100 60 40 (by decide) (by decide) (by decide) (by decide),
   C7_health_floor_clamp.2.2.1 25 (by decide),
   C7_health_floor_clamp.2.2.2 duelState 1 3 4 (by decide) (by decide)⟩

/-- Counterexample to C7 as stated: a client-supplied damage of −1 on a
target at health 100 stores health 101, outside [0, 100]. -/
theorem C7_counterexample :
    healthOf duelState 2 = some (some 100) ∧
    healthOf (step duelState (Event.playerHit 1 2 (-1))).1 2 = some (some 101) := by
  decide

/-! Claim C1: target resolution of `playerHit`. -/

/-- C1 (amended): the `playerHit` target is looked up in the *global*
socket registry, not in the sender's session: an unknown `targetId` makes
the whole event a silent no-op, but a `targetId` naming any live socket —
inside the sender's session or not — has its stored health damaged; the
session lookup only gates the broadcasts, so a sender with no session
changes the target's health yet emits nothing. -/
theorem C1_hit_lookup_global (st : ServerState) (sid tid : SocketId) (d : Int)
    (hc : connected st sid = true) :
    (alookup tid st.sockets = none →
        step st (Event.playerHit sid tid d) = (st, [])) ∧
    (∀ td, alookup tid st.sockets = some td →
        healthOf (step st (Event.playerHit sid tid d)).1 tid
          = some (applyDamage td.health d) ∧
        (findGameContaining st.activeGames sid = none →
            (step st (Event.playerHit sid tid d)).2 = [])) := by
  constructor
  · intro h
    simp [step, hc, stepPlayerHit, h]
  · intro td h
    constructor
    · simp only [step, hc, if_true, stepPlayerHit, h]
      cases hg : findGameContaining st.activeGames sid <;>
        simp [healthOf, alookup_aupdate_self, h, hg]
    · intro hg
      simp [step, hc, stepPlayerHit, h, hg]

/-- Witness for C1: in `duelState` a hit naming the unknown socket 99 is a
no-op; across the two sessions of `twoDuelsState` a hit by 1 (session 0)
on 3 (session 1) still lands, storing health 70 on 3; a queued-but-
unmatched sender's hit emits nothing. -/
theorem C1_hit_lookup_global_witness :
    step duelState (Event.playerHit 1 99 10) = (duelState, []) ∧
    healthOf (step twoDuelsState (Event.playerHit 1 3 30)).1 3 = some (some 70) ∧
    (step selfPairBase (Event.playerHit 1 1 5)).2 = [] := by
  refine ⟨(C1_hit_lookup_global duelState 1 99 10 (by decide)).1 (by decide), ?_, ?_⟩
  · have h := ((C1_hit_lookup_global twoDuelsState 1 3 30 (by decide)).2
        ⟨some Team.A, some 0, some 0, some 100⟩ (by decide)).1
    exact h.trans (by decide)
  · exact ((C1_hit_lookup_global selfPairBase 1 1 5 (by decide)).2
        ⟨some Team.A, none, none, none⟩ (by decide)).2 (by decide)

/-- Counterexample to C1 as stated: sockets 1 and 3 are in different
sessions of `twoDuelsState`, yet 1's hit on 3 changes 3's stored health
from 100 to 70 and broadcasts `healthUpdate` into 1's session — the claim
says such a hit is ignored. -/
theorem C1_counterexample :
    (findGameContaining twoDuelsState.activeGames 1).map Game.players = some [1, 2] ∧
    healthOf twoDuelsState 3 = some (some 100) ∧
    healthOf (step twoDuelsState (Event.playerHit 1 3 30)).1 3 = some (some 70) ∧
    (step twoDuelsState (Event.playerHit 1 3 30)).2
        = [(1, SMsg.healthUpdate 3 (some 70)), (2, SMsg.healthUpdate 3 (some 70))] := by
  decide

/-! Claim C4: gameplay events from a session-less connection. -/

/-- C4 (amended): from a connection in no session, `playerJoin` and
`playerShoot` are dropped with no state change and no output, but
`playerMove` still overwrites the sender's stored position/rotation (while
emitting nothing) and `playerHit` still damages a resolvable target's
stored health (while emitting nothing). -/
theorem C4_sessionless_events (st : ServerState) (sid tid : SocketId)
    (p r mp mr pos dir vel d : Int)
    (hc : connected st sid = true)
    (hg : findGameContaining st.activeGames sid = none) :
    step st (Event.playerJoin sid p r) = (st, []) ∧
    step st (Event.playerShoot sid pos dir vel) = (st, []) ∧
    ((step st (Event.playerMove sid mp mr)).2 = [] ∧
      positionOf (step st (Event.playerMove sid mp mr)).1 sid = some (some mp)) ∧
    (∀ td, alookup tid st.sockets = some td →
        (step st (Event.playerHit sid tid d)).2 = [] ∧
        healthOf (step st (Event.playerHit sid tid d)).1 tid
          = some (applyDamage td.health d)) := by
  obtain ⟨dd, hd⟩ := Option.isSome_iff_exists.mp hc
  refine ⟨?_, ?_, ⟨?_, ?_⟩, ?_⟩
  · simp [step, hc, stepPlayerJoin, hg]
  · simp [step, hc, stepPlayerShoot, hg]
  · simp [step, hc, stepPlayerMove, hg]
  · simp [step, hc, stepPlayerMove, hg, positionOf, alookup_aupdate_self, hd]
  · intro td ht
    constructor
    · simp [step, hc, stepPlayerHit, ht, hg]
    · simp only [step, hc, if_true, stepPlayerHit, ht]
      cases hgg : findGameContaining st.activeGames sid <;>
        simp [healthOf, alookup_aupdate_self, ht, hgg]

/-- Witness for C4: sockets 7 and 8 are connected but session-less;
7's `playerJoin` and `playerShoot` are complete no-ops, 7's `playerMove`
silently stores position 5, and 7's hit on 8 silently applies damage to
8's (unset) health. -/
theorem C4_sessionless_events_witness :
    step lonePair (Event.playerJoin 7 1 2) = (lonePair, []) ∧
    step lonePair (Event.playerShoot 7 1 2 3) = (lonePair, []) ∧
    ((step lonePair (Event.playerMove 7 5 6)).2 = [] ∧
      positionOf (step lonePair (Event.playerMove 7 5 6)).1 7 = some (some 5)) ∧
    ((step lonePair (Event.playerHit 7 8 9)).2 = [] ∧
      healthOf (step lonePair (Event.playerHit 7 8 9)).1 8 = some none) := by
  have hmain := C4_sessionless_events lonePair 7 8 1 2 5 6 1 2 3 9 (by decide) (by decide)
  exact ⟨hmain.1, hmain.2.1, hmain.2.2.1, hmain.2.2.2 SocketData.init (by decide)⟩

/-- Counterexample to C4 as stated: socket 1 is connected and belongs to
no session, yet its `playerMove` changes its stored position from unset to
5 — the claim says no stored position of any connection is modified. -/
theorem C4_counterexample :
    findGameContaining (applyEvents initState [Event.connect 1]).activeGames 1 = none ∧
    positionOf (applyEvents initState [Event.connect 1]) 1 = some none ∧
    positionOf (step (applyEvents initState [Event.connect 1])
        (Event.playerMove 1 5 7)).1 1 = some (some 5) := by
  decide

/-! Claim C10: self-hits. -/

/-- C10: a session member naming itself as `playerHit` target is processed
like any other hit: its own stored health is damaged (clamped at 0), every
room member receives the `healthUpdate`, and when the clamped health
reaches 0 every room member receives a `playerDeath` naming the sender as
both victim and killer. -/
theorem C10_self_hit (st : ServerState) (sid : SocketId) (d h : Int)
    (dd : SocketData) (g : Game)
    (hs : alookup sid st.sockets = some dd)
    (hh : dd.health = some h)
    (hg : findGameContaining st.activeGames sid = some g) :
    healthOf (step st (Event.playerHit sid sid d)).1 sid
      = some (applyDamage (some h) d) ∧
    (∀ m ∈ roomMembers st g.gid,
      (m, SMsg.healthUpdate sid (applyDamage (some h) d))
        ∈ (step st (Event.playerHit sid sid d)).2) ∧
    (h - d ≤ 0 → ∀ m ∈ roomMembers st g.gid,
      (m, SMsg.playerDeath sid sid) ∈ (step st (Event.playerHit sid sid d)).2) := by
  have hc : connected st sid = true := by simp [connected, hs]
  refine ⟨?_, ?_, ?_⟩
  · simp only [step, hc, if_true, stepPlayerHit, hs]
    cases hgg : findGameContaining st.activeGames sid <;>
      simp [healthOf, alookup_aupdate_self, hs, hh, hgg]
  · intro m hm
    simp only [step, hc, if_true, stepPlayerHit, hs, hh, hg]
    exact List.mem_append_left _ (List.mem_map.mpr ⟨m, hm, rfl⟩)
  · intro hd0 m hm
    have hlez : healthLEZ (applyDamage (some h) d) = true := by
      simp only [applyDamage, healthLEZ, decide_eq_true_eq]
      split <;> omega
    simp only [step, hc, if_true, stepPlayerHit, hs, hh, hg, hlez, if_true]
    exact List.mem_append_right _ (List.mem_map.mpr ⟨m, hm, rfl⟩)

/-- Witness for C10: in `duelState`, player 1's 100-damage hit on itself
stores health 0, broadcasts the `healthUpdate` to both members and the
`playerDeath` with victim = killer = 1 to both members. -/
theorem C10_self_hit_witness :
    healthOf (step duelState (Event.playerHit 1 1 100)).1 1 = some (some 0) ∧
    (2, SMsg.healthUpdate 1 (some 0)) ∈ (step duelState (Event.playerHit 1 1 100)).2 ∧
    (2, SMsg.playerDeath 1 1) ∈ (step duelState (Event.playerHit 1 1 100)).2 := by
  have happ : applyDamage (some 100) (100 : Int) = some 0 := by decide
  have hmain := C10_self_hit duelState 1 100 100
      ⟨some Team.A, some 0, some 0, some 100⟩ ⟨0, [1, 2], GState.starting⟩
      (by decide) (by decide) (by decide)
  refine ⟨(happ ▸ hmain.1 : _), (happ ▸ hmain.2.1 2 (by decide) : _),
    hmain.2.2 (by decide) 2 (by decide)⟩

/-! Claim C2: when `playerDeath` fires. -/

/-- C2 (amended): with the sender in a session, a resolvable target whose
stored health is the integer `h`, and a nonempty session room, a
`playerHit` with damage `d` broadcasts `playerDeath` precisely when the
post-hit clamped health passes the `<= 0` test, i.e. precisely when
`h - d ≤ 0`.  There is no transition check against the *previous* health,
so repeated hits on a target already at 0 keep broadcasting `playerDeath`
(alongside `healthUpdate` with health 0) every time. -/
theorem C2_death_repeats_at_zero (st : ServerState) (sid tid : SocketId)
    (d h : Int) (td : SocketData) (g : Game)
    (hc : connected st sid = true)
    (ht : alookup tid st.sockets = some td)
    (hh : td.health = some h)
    (hg : findGameContaining st.activeGames sid = some g)
    (hm : roomMembers st g.gid ≠ []) :
    ((∃ m, (m, SMsg.playerDeath tid sid) ∈ (step st (Event.playerHit sid tid d)).2)
        ↔ h - d ≤ 0) ∧
    ∃ m, (m, SMsg.healthUpdate tid (applyDamage (some h) d))
        ∈ (step st (Event.playerHit sid tid d)).2 := by
  obtain ⟨m0, hm0⟩ := List.exists_mem_of_ne_nil _ hm
  by_cases hz : h - d ≤ 0
  · have hlez : healthLEZ (applyDamage (some h) d) = true := by
      simp only [applyDamage, healthLEZ, decide_eq_true_eq]
      split <;> omega
    refine ⟨⟨fun _ => hz, fun _ => ⟨m0, ?_⟩⟩, ⟨m0, ?_⟩⟩
    · simp only [step, hc, if_true, stepPlayerHit, ht, hh, hg, hlez, if_true]
      exact List.mem_append_right _ (List.mem_map.mpr ⟨m0, hm0, rfl⟩)
    · simp only [step, hc, if_true, stepPlayerHit, ht, hh, hg]
      exact List.mem_append_left _ (List.mem_map.mpr ⟨m0, hm0, rfl⟩)
  · have hlez : healthLEZ (applyDamage (some h) d) = false := by
      simp only [applyDamage, healthLEZ, decide_eq_false_iff_not]
      split <;> omega
    refine ⟨⟨?_, fun hzz => absurd hzz hz⟩, ⟨m0, ?_⟩⟩
    · rintro ⟨m, hmem⟩
      exfalso
      simp only [step, hc, if_true, stepPlayerHit, ht, hh, hg, hlez,
        Bool.false_eq_true, if_false, List.append_nil] at hmem
      rcases List.mem_map.mp hmem with ⟨m2, _, heq⟩
      simp at heq
    · simp only [step, hc, if_true, stepPlayerHit, ht, hh, hg]
      exact List.mem_append_left _ (List.mem_map.mpr ⟨m0, hm0, rfl⟩)

/-- Witness for C2: in `duelDead` player 2 is already stored at health 0,
and a further 50-damage hit by 1 broadcasts `playerDeath` again together
with a `healthUpdate` at health 0. -/
theorem C2_death_repeats_at_zero_witness :
    (∃ m, (m, SMsg.playerDeath 2 1) ∈ (step duelDead (Event.playerHit 1 2 50)).2) ∧
    ∃ m, (m, SMsg.healthUpdate 2 (applyDamage (some 0) 50))
        ∈ (step duelDead (Event.playerHit 1 2 50)).2 := by
  have hmain := C2_death_repeats_at_zero duelDead 1 2 50 0
      ⟨some Team.B, some 0, some 0, some 0⟩ ⟨0, [1, 2], GState.starting⟩
      (by decide) (by decide) (by decide) (by decide) (by decide)
  exact ⟨hmain.1.mpr (by decide), hmain.2⟩

/-- Counterexample to C2 as stated: the first 100-damage hit takes player
2 from health 100 to 0 and broadcasts `playerDeath`; a *further* hit on
the now-dead target broadcasts `playerDeath` again — the claim says a
second `playerDeath` is never emitted. -/
theorem C2_counterexample :
    healthOf duelDead 2 = some (some 0) ∧
    (1, SMsg.playerDeath 2 1) ∈ (step duelState (Event.playerHit 1 2 100)).2 ∧
    (1, SMsg.playerDeath 2 1) ∈ (step duelDead (Event.playerHit 1 2 50)).2 ∧
    (1, SMsg.healthUpdate 2 (some 0)) ∈ (step duelDead (Event.playerHit 1 2 50)).2 := by
  decide

/-! Claim C3: disconnect of one session member. -/

theorem disconnectGames_clean (sid : SocketId) (rooms : List (GameId × List SocketId))
    (gs : List Game) (h : ∀ g ∈ gs, sid ∉ g.players) :
    disconnectGames sid rooms gs = (gs, []) := by
  induction gs with
  | nil => rfl
  | cons g rest ih =>
      have hg : sid ∉ g.players := h g (by simp)
      have ih2 := ih (fun g2 hg2 => h g2 (by simp [hg2]))
      simp [disconnectGames, hg, ih2]

theorem disconnectGames_append_clean (sid : SocketId)
    (rooms : List (GameId × List SocketId)) (gs1 rest : List Game)
    (h1 : ∀ g ∈ gs1, sid ∉ g.players) :
    disconnectGames sid rooms (gs1 ++ rest)
      = (gs1 ++ (disconnectGames sid rooms rest).1,
         (disconnectGames sid rooms rest).2) := by
  induction gs1 with
  | nil => simp
  | cons g gs ih =>
      have hg : sid ∉ g.players := h1 g (by simp)
      have ih2 := ih (fun g2 hg2 => h1 g2 (by simp [hg2]))
      simp [disconnectGames, hg, ih2]

/-- C3 (amended): when one member of a two-player session disconnects,
exactly one `gameEnded` with reason `"opponent_left"` and `winnerId` equal
to the remaining member is delivered, to the remaining member only — but
the session is *not* removed from the active set: it stays there with the
single remaining player (games are only deleted once their last player has
gone), so subsequent events referencing it still take effect. -/
theorem C3_disconnect_keeps_session (st : ServerState) (gid : GameId)
    (a b : SocketId) (gst : GState) (gs1 gs2 : List Game)
    (hc : connected st a = true)
    (hgames : st.activeGames = gs1 ++ Game.mk gid [a, b] gst :: gs2)
    (h1 : ∀ g ∈ gs1, a ∉ g.players) (h2 : ∀ g ∈ gs2, a ∉ g.players)
    (hroom : alookup gid st.rooms = some [a, b])
    (hab : a ≠ b) :
    (step st (Event.disconnect a)).1.activeGames
        = gs1 ++ Game.mk gid [b] gst :: gs2 ∧
    ((step st (Event.disconnect a)).2).filter isGameEnded
        = [(b, SMsg.gameEnded "opponent_left" b)] := by
  have hba : b ≠ a := Ne.symm hab
  have hr1 : alookup gid
      (st.rooms.map (fun p => (p.1, p.2.filter (fun m => decide (m ≠ a)))))
        = some [b] := by
    rw [alookup_map_snd, hroom]
    simp [hba]
  have htail := disconnectGames_clean a
    (st.rooms.map (fun p => (p.1, p.2.filter (fun m => decide (m ≠ a))))) gs2 h2
  simp only [step, hc, if_true, stepDisconnect, hgames]
  rw [disconnectGames_append_clean _ _ _ _ h1]
  simp only [decide_not] at hr1 htail
  simp [disconnectGames, hr1, htail, hba, isGameEnded, List.filter_append,
    List.erase_cons_head, decide_not]

/-- Witness for C3: in `duelState` (session 0 = `{1, 2}`), disconnecting 1
leaves the session in the active set with players `[2]` and delivers the
single `gameEnded` (reason `"opponent_left"`, winner 2) to 2 only. -/
theorem C3_disconnect_keeps_session_witness :
    (step duelState (Event.disconnect 1)).1.activeGames
        = [Game.mk 0 [2] GState.starting] ∧
    ((step duelState (Event.disconnect 1)).2).filter isGameEnded
        = [(2, SMsg.gameEnded "opponent_left" 2)] := by
  have hmain := C3_disconnect_keeps_session duelState 0 1 2 GState.starting [] []
      (by decide) (by decide) (by decide) (by decide) (by decide) (by decide)
  exact ⟨hmain.1.trans (by decide), hmain.2⟩

/-- Counterexample to C3 as stated: after player 1 disconnects from the
two-player session, the session is *still* in the active set, and a later
`playerHit` referencing it (the remaining player 2 hitting itself) takes
full effect — the claim says the session is removed and such events have
no effect. -/
theorem C3_counterexample :
    (applyEvents initState (baseDuel ++ [Event.disconnect 1])).activeGames ≠ [] ∧
    healthOf (step (applyEvents initState (baseDuel ++ [Event.disconnect 1]))
        (Event.playerHit 2 2 30)).1 2 = some (some 70) ∧
    (step (applyEvents initState (baseDuel ++ [Event.disconnect 1]))
        (Event.playerHit 2 2 30)).2 ≠ [] := by
  decide

/-! Claim C5: FIFO pairing. -/

theorem applyEvents_cons (st : ServerState) (e : Event) (es : List Event) :
    applyEvents st (e :: es) = applyEvents (step st e).1 es := rfl

theorem matchPlayers_sockets (s : ServerState) :
    (matchPlayers s).1.sockets = s.sockets := by
  cases hq : s.waitingPlayers with
  | nil => simp [matchPlayers, hq]
  | cons p1 rest =>
      cases rest with
      | nil => simp [matchPlayers, hq]
      | cons p2 rest2 => simp [matchPlayers, hq]

theorem matchPlayers_at_most_one (s : ServerState) :
    (matchPlayers s).1.activeGames.length ≤ s.activeGames.length + 1 := by
  cases hq : s.waitingPlayers with
  | nil => simp [matchPlayers, hq]
  | cons p1 rest =>
      cases rest with
      | nil => simp [matchPlayers, hq]
      | cons p2 rest2 => simp [matchPlayers, hq]

theorem stepJoin_sockets (st : ServerState) (a : SocketId)
    (hc : connected st a = true) :
    (step st (Event.joinMatchmaking a)).1.sockets
      = aupdate a
          (fun d => { d with
            team := some (if st.waitingPlayers.length % 2 = 0 then Team.A else Team.B) })
          st.sockets := by
  simp only [step, hc, if_true, stepJoinMatchmaking]
  rw [matchPlayers_sockets]

theorem connected_join_step (st : ServerState) (a x : SocketId) :
    connected (step st (Event.joinMatchmaking a)).1 x = connected st x := by
  by_cases hc : connected st a = true
  · show (alookup x (step st (Event.joinMatchmaking a)).1.sockets).isSome = _
    rw [stepJoin_sockets st a hc, isSome_alookup_aupdate]
    rfl
  · have h : step st (Event.joinMatchmaking a) = (st, []) := by
      simp [step, hc]
    rw [h]

theorem join_step_empty_queue (st : ServerState) (a : SocketId)
    (hc : connected st a = true) (hq : st.waitingPlayers = []) :
    (step st (Event.joinMatchmaking a)).1
      = { st with
          sockets := aupdate a (fun d => { d with team := some Team.A }) st.sockets,
          waitingPlayers := [a] } := by
  simp [step, hc, stepJoinMatchmaking, matchPlayers, hq]

theorem join_step_single_queue (st : ServerState) (q a : SocketId)
    (hc : connected st a = true) (hq : st.waitingPlayers = [q]) :
    (step st (Event.joinMatchmaking a)).1
      = { st with
          sockets := aupdate a (fun d => { d with team := some Team.B }) st.sockets,
          waitingPlayers := [],
          activeGames := st.activeGames ++ [Game.mk st.nextGameId [q, a] GState.starting],
          rooms := roomJoin st.nextGameId a (roomJoin st.nextGameId q st.rooms),
          nextGameId := st.nextGameId + 1 } := by
  simp [step, hc, stepJoinMatchmaking, matchPlayers, hq]

theorem applyJoins_pairs : ∀ (xs : List SocketId) (st : ServerState),
    st.waitingPlayers = [] →
    (∀ x ∈ xs, connected st x = true) →
    (applyEvents st (xs.map Event.joinMatchmaking)).activeGames.map Game.players
      = st.activeGames.map Game.players ++ pairUp xs
  | [], st, _, _ => by simp [applyEvents, pairUp]
  | [a], st, hq, hc => by
      have hca : connected st a = true := hc a (by simp)
      have h1 := join_step_empty_queue st a hca hq
      simp only [List.map_cons, List.map_nil, applyEvents_cons, h1]
      simp [applyEvents, pairUp]
  | a :: b :: rest, st, hq, hc => by
      have hca : connected st a = true := hc a (by simp)
      have h1 := join_step_empty_queue st a hca hq
      have hq1 : (step st (Event.joinMatchmaking a)).1.waitingPlayers = [a] := by
        rw [h1]
      have hcb : connected (step st (Event.joinMatchmaking a)).1 b = true := by
        rw [connected_join_step]
        exact hc b (by simp)
      have h2 := join_step_single_queue (step st (Event.joinMatchmaking a)).1 a b hcb hq1
      have hq2 : (step (step st (Event.joinMatchmaking a)).1
          (Event.joinMatchmaking b)).1.waitingPlayers = [] := by
        rw [h2]
      have hcrest : ∀ x ∈ rest,
          connected (step (step st (Event.joinMatchmaking a)).1
            (Event.joinMatchmaking b)).1 x = true := by
        intro x hx
        rw [connected_join_step, connected_join_step]
        exact hc x (by simp [hx])
      have ih := applyJoins_pairs rest
        (step (step st (Event.joinMatchmaking a)).1 (Event.joinMatchmaking b)).1
        hq2 hcrest
      have hgames2 : (step (step st (Event.joinMatchmaking a)).1
          (Event.joinMatchmaking b)).1.activeGames
            = st.activeGames
              ++ [Game.mk (step st (Event.joinMatchmaking a)).1.nextGameId [a, b]
                    GState.starting] := by
        rw [h2, h1]
      simp only [List.map_cons, applyEvents_cons]
      rw [ih, hgames2]
      simp [pairUp]

/-- C5: pairing is strict FIFO — running any sequence of `joinMatchmaking`
events (from connected sockets, starting with an empty queue) extends the
game list by exactly the consecutive pairs of the enqueue order, so the
Nth and (N+1)th enqueued (N odd) are always paired together, never skipped
or reordered; and a single `matchPlayers` invocation creates at most one
session. -/
theorem C5_fifo_pairing (xs : List SocketId) (st : ServerState)
    (hq : st.waitingPlayers = [])
    (hc : ∀ x ∈ xs, connected st x = true) :
    (applyEvents st (xs.map Event.joinMatchmaking)).activeGames.map Game.players
      = st.activeGames.map Game.players ++ pairUp xs ∧
    ∀ s : ServerState, (matchPlayers s).1.activeGames.length ≤ s.activeGames.length + 1 :=
  ⟨applyJoins_pairs xs st hq hc, fun s => matchPlayers_at_most_one s⟩

/-- Witness for C5: enqueueing 5, 6, 9, 12 in that order onto an empty
queue yields exactly the games `{5,6}` then `{9,12}`. -/
theorem C5_fifo_pairing_witness :
    (applyEvents fourConn ([5, 6, 9, 12].map Event.joinMatchmaking)).activeGames.map
        Game.players = [[5, 6], [9, 12]] ∧
    (matchPlayers duelState).1.activeGames.length ≤ duelState.activeGames.length + 1 := by
  have hmain := C5_fifo_pairing [5, 6, 9, 12] fourConn (by decide) (by decide)
  exact ⟨hmain.1.trans (by decide), hmain.2 duelState⟩

/-! Claim C6: queue/session exclusivity. -/

theorem disconnectGames_players_sub (sid : SocketId)
    (rooms : List (GameId × List SocketId)) :
    ∀ gs : List Game, ∀ g2 ∈ (disconnectGames sid rooms gs).1,
      ∃ g ∈ gs, ∀ x, x ∈ g2.players → x ∈ g.players := by
  intro gs
  induction gs with
  | nil => intro g2 h2; simp [disconnectGames] at h2
  | cons g rest ih =>
      intro g2 h2
      by_cases hg : sid ∈ g.players
      · simp only [disconnectGames, hg, if_true] at h2
        by_cases he : (g.players.erase sid).isEmpty
        · simp only [he, if_true] at h2
          obtain ⟨g3, hg3, hsub⟩ := ih g2 h2
          exact ⟨g3, by simp [hg3], hsub⟩
        · simp only [he, Bool.false_eq_true, if_false, List.mem_cons] at h2
          rcases h2 with h2 | h2
          · refine ⟨g, by simp, ?_⟩
            intro x hx
            rw [h2] at hx
            exact List.erase_subset _ _ hx
          · obtain ⟨g3, hg3, hsub⟩ := ih g2 h2
            exact ⟨g3, by simp [hg3], hsub⟩
      · simp only [disconnectGames, hg, if_false, List.mem_cons] at h2
        rcases h2 with h2 | h2
        · exact ⟨g, by simp, by rw [h2]; exact fun x hx => hx⟩
        · obtain ⟨g3, hg3, hsub⟩ := ih g2 h2
          exact ⟨g3, by simp [hg3], hsub⟩

theorem disconnectGames_countP_le (sid : SocketId)
    (rooms : List (GameId × List SocketId)) (x : SocketId) :
    ∀ gs : List Game,
      (disconnectGames sid rooms gs).1.countP (fun g => decide (x ∈ g.players))
        ≤ gs.countP (fun g => decide (x ∈ g.players)) := by
  intro gs
  induction gs with
  | nil => simp [disconnectGames]
  | cons g rest ih =>
      by_cases hg : sid ∈ g.players
      · simp only [disconnectGames, hg, if_true]
        by_cases he : (g.players.erase sid).isEmpty
        · simp only [he, if_true, List.countP_cons]
          omega
        · simp only [he, Bool.false_eq_true, if_false, List.countP_cons]
          have hmono : (if decide (x ∈ g.players.erase sid) = true then 1 else 0)
              ≤ (if decide (x ∈ g.players) = true then 1 else 0) := by
            by_cases hx : x ∈ g.players.erase sid
            · have : x ∈ g.players := List.erase_subset _ _ hx
              simp [hx, this]
            · simp [hx]
          omega
      · simp only [disconnectGames, hg, if_false, List.countP_cons]
        omega

theorem countP_map_setActive (l : List Game) (gid : GameId) (x : SocketId) :
    (l.map (fun g => if g.gid = gid then { g with gstate := GState.active } else g)).countP
        (fun g => decide (x ∈ g.players))
      = l.countP (fun g => decide (x ∈ g.players)) := by
  induction l with
  | nil => simp
  | cons g rest ih =>
      by_cases h : g.gid = gid <;> simp [List.countP_cons, h, ih]

theorem stepJoinMatchmaking_fst (st : ServerState) (sid : SocketId) :
    (stepJoinMatchmaking st sid).1
      = (matchPlayers
          { st with
              sockets := aupdate sid
                (fun d => { d with
                  team := some (if st.waitingPlayers.length % 2 = 0 then Team.A else Team.B) })
                st.sockets,
              waitingPlayers := st.waitingPlayers ++ [sid] }).1 := rfl

theorem matchPlayers_inv (s : ServerState)
    (hnd : s.waitingPlayers.Nodup)
    (hex : ∀ x ∈ s.waitingPlayers, ∀ g ∈ s.activeGames, x ∉ g.players)
    (hcnt : ∀ x : SocketId, SessionCount s x ≤ 1) :
    QueueSessionInv (matchPlayers s).1 := by
  cases hq : s.waitingPlayers with
  | nil =>
      have h : (matchPlayers s).1 = s := by simp [matchPlayers, hq]
      rw [h]
      exact ⟨hnd, hex, hcnt⟩
  | cons p1 rest =>
      cases rest with
      | nil =>
          have h : (matchPlayers s).1 = s := by simp [matchPlayers, hq]
          rw [h]
          exact ⟨hnd, hex, hcnt⟩
      | cons p2 rest2 =>
          rw [hq] at hnd
          have hp1 : p1 ∉ p2 :: rest2 := (List.nodup_cons.mp hnd).1
          have hnd2 : (p2 :: rest2).Nodup := (List.nodup_cons.mp hnd).2
          have hp2 : p2 ∉ rest2 := (List.nodup_cons.mp hnd2).1
          have hndr : rest2.Nodup := (List.nodup_cons.mp hnd2).2
          have hexq : ∀ x ∈ s.waitingPlayers, ∀ g ∈ s.activeGames, x ∉ g.players := hex
          refine ⟨?_, ?_, ?_⟩
          · simp only [matchPlayers, hq]
            exact hndr
          · simp only [matchPlayers, hq]
            intro x hx g hg
            rcases List.mem_append.mp hg with hg | hg
            · exact hexq x (by rw [hq]; simp [hx]) g hg
            · have hgG : g = Game.mk s.nextGameId [p1, p2] GState.starting := by
                simpa using hg
              rw [hgG]
              simp only [List.mem_cons, List.mem_singleton]
              rintro (h1 | h1 | h1)
              · exact hp1 (h1 ▸ by simp [hx])
              · exact hp2 (h1 ▸ hx)
              · simp at h1
          · intro x
            simp only [SessionCount, matchPlayers, hq, List.countP_append]
            by_cases hx : x ∈ [p1, p2]
            · have hxq : x ∈ s.waitingPlayers := by
                rw [hq]
                rcases List.mem_cons.mp hx with h | h
                · simp [h]
                · simp at h
                  simp [h]
              have h0 : s.activeGames.countP (fun g => decide (x ∈ g.players)) = 0 := by
                rw [List.countP_eq_zero]
                intro g hg
                simpa using hexq x hxq g hg
              simp [h0, List.countP_cons, hx]
            · have h1 : List.countP (fun g => decide (x ∈ g.players))
                  [Game.mk s.nextGameId [p1, p2] GState.starting] = 0 := by
                rw [List.countP_eq_zero]
                intro g hg
                simp at hg
                rw [hg]
                simpa using hx
              rw [h1]
              have := hcnt x
              simpa [SessionCount] using this

/-- C6 (amended): the exclusivity invariant — nobody queued twice, nobody
in two sessions, nobody both queued and in a session — is preserved by
every event *provided* `joinMatchmaking` only arrives from a connection
that is neither queued nor in a session.  The code itself performs no such
check, and the invariant genuinely fails for a repeated `joinMatchmaking`
(see the counterexample). -/
theorem C6_invariant_preserved (st : ServerState) (e : Event)
    (hI : QueueSessionInv st) (hA : JoinAllowed st e) :
    QueueSessionInv (step st e).1 := by
  obtain ⟨hnd, hex, hcnt⟩ := hI
  cases e with
  | connect sid =>
      by_cases hc : connected st sid = true
      · simp only [step, hc, if_true]
        exact ⟨hnd, hex, hcnt⟩
      · simp only [step, hc, Bool.false_eq_true, if_false]
        exact ⟨hnd, hex, hcnt⟩
  | joinMatchmaking sid =>
      obtain ⟨hA1, hA2⟩ := hA
      by_cases hc : connected st sid = true
      · simp only [step, hc, if_true]
        rw [stepJoinMatchmaking_fst]
        apply matchPlayers_inv
        · show (st.waitingPlayers ++ [sid]).Nodup
          rw [List.nodup_append]
          exact ⟨hnd, List.nodup_singleton sid, by
            intro x hx hx2
            simp at hx2
            exact hA1 (hx2 ▸ hx)⟩
        · show ∀ x ∈ st.waitingPlayers ++ [sid], ∀ g ∈ st.activeGames, x ∉ g.players
          intro x hx g hg
          rcases List.mem_append.mp hx with hx | hx
          · exact hex x hx g hg
          · simp at hx
            subst hx
            exact hA2 g hg
        · intro x
          exact hcnt x
      · simp only [step, hc, Bool.false_eq_true, if_false]
        exact ⟨hnd, hex, hcnt⟩
  | cancelMatchmaking sid =>
      by_cases hc : connected st sid = true
      · simp only [step, hc, if_true]
        refine ⟨hnd.erase sid, ?_, hcnt⟩
        intro x hx g hg
        exact hex x (List.erase_subset _ _ hx) g hg
      · simp only [step, hc, Bool.false_eq_true, if_false]
        exact ⟨hnd, hex, hcnt⟩
  | playerJoin sid p r =>
      by_cases hc : connected st sid = true
      · simp only [step, hc, if_true, stepPlayerJoin]
        cases hg : findGameContaining st.activeGames sid
        · exact ⟨hnd, hex, hcnt⟩
        · exact ⟨hnd, hex, hcnt⟩
      · simp only [step, hc, Bool.false_eq_true, if_false]
        exact ⟨hnd, hex, hcnt⟩
  | playerMove sid p r =>
      by_cases hc : connected st sid = true
      · simp only [step, hc, if_true, stepPlayerMove]
        cases hg : findGameContaining st.activeGames sid
        · exact ⟨hnd, hex, hcnt⟩
        · exact ⟨hnd, hex, hcnt⟩
      · simp only [step, hc, Bool.false_eq_true, if_false]
        exact ⟨hnd, hex, hcnt⟩
  | playerShoot sid p dr v =>
      by_cases hc : connected st sid = true
      · simp only [step, hc, if_true, stepPlayerShoot]
        cases hg : findGameContaining st.activeGames sid
        · exact ⟨hnd, hex, hcnt⟩
        · exact ⟨hnd, hex, hcnt⟩
      · simp only [step, hc, Bool.false_eq_true, if_false]
        exact ⟨hnd, hex, hcnt⟩
  | playerHit sid tid d =>
      by_cases hc : connected st sid = true
      · simp only [step, hc, if_true, stepPlayerHit]
        cases ht : alookup tid st.sockets
        · exact ⟨hnd, hex, hcnt⟩
        · cases hg : findGameContaining st.activeGames sid
          · exact ⟨hnd, hex, hcnt⟩
          · exact ⟨hnd, hex, hcnt⟩
      · simp only [step, hc, Bool.false_eq_true, if_false]
        exact ⟨hnd, hex, hcnt⟩
  | disconnect sid =>
      by_cases hc : connected st sid = true
      · simp only [step, hc, if_true, stepDisconnect]
        refine ⟨hnd.erase sid, ?_, ?_⟩
        · intro x hx g2 hg2
          obtain ⟨g, hg, hsub⟩ := disconnectGames_players_sub sid _ st.activeGames g2 hg2
          intro hx2
          exact hex x (List.erase_subset _ _ hx) g hg (hsub x hx2)
        · intro x
          calc (disconnectGames sid _ st.activeGames).1.countP
                (fun g => decide (x ∈ g.players))
              ≤ st.activeGames.countP (fun g => decide (x ∈ g.players)) :=
                disconnectGames_countP_le sid _ x st.activeGames
            _ ≤ 1 := hcnt x
      · simp only [step, hc, Bool.false_eq_true, if_false]
        exact ⟨hnd, hex, hcnt⟩
  | countdownFire gid =>
      simp only [step, stepCountdown]
      cases hg : findGame st.activeGames gid
      · exact ⟨hnd, hex, hcnt⟩
      · refine ⟨hnd, ?_, ?_⟩
        · intro x hx g2 hg2
          obtain ⟨g, hgmem, hfg⟩ := List.mem_map.mp hg2
          have hpl : g2.players = g.players := by
            by_cases h : g.gid = gid <;> simp [h] at hfg <;> rw [← hfg]
          rw [hpl]
          exact hex x hx g hgmem
        · intro x
          show (st.activeGames.map _).countP _ ≤ 1
          rw [countP_map_setActive]
          exact hcnt x

/-- Witness for C6: from four idle connected sockets, a first
`joinMatchmaking` preserves the exclusivity invariant. -/
theorem C6_invariant_preserved_witness :
    QueueSessionInv (step fourConn (Event.joinMatchmaking 5)).1 := by
  have hg : fourConn.activeGames = [] := by decide
  have h0 : QueueSessionInv fourConn :=
    ⟨by decide, by decide, fun sid => by simp [SessionCount, hg]⟩
  exact C6_invariant_preserved fourConn (Event.joinMatchmaking 5) h0
    ⟨by decide, by decide⟩

/-- Counterexample to C6 as stated: connection 1, already in session 0
with connection 2, sends `joinMatchmaking` a second time; between handlers
it is now simultaneously in the waiting queue and in a session. -/
theorem C6_counterexample :
    1 ∈ (applyEvents initState dupJoinTrace).waitingPlayers ∧
    0 < SessionCount (applyEvents initState dupJoinTrace) 1 := by
  decide

/-! Claim C9: provisional team labels versus confirmed teams. -/

theorem gameMatched_not_in_disconnectGames (sid : SocketId)
    (rooms : List (GameId × List SocketId)) :
    ∀ (gs : List Game) (r : SocketId) (gid : GameId) (c : Nat)
      (ps : List (SocketId × Team)),
      (r, SMsg.gameMatched gid c ps) ∉ (disconnectGames sid rooms gs).2 := by
  intro gs
  induction gs with
  | nil => intro r gid c ps; simp [disconnectGames]
  | cons g rest ih =>
      intro r gid c ps hmem
      by_cases hg : sid ∈ g.players
      · simp only [disconnectGames, hg, if_true] at hmem
        by_cases he : (g.players.erase sid).isEmpty
        · simp only [he, if_true, List.mem_append] at hmem
          rcases hmem with hmem | hmem
          · rcases List.mem_map.mp hmem with ⟨m, _, heq⟩
            simp at heq
          · exact ih r gid c ps hmem
        · by_cases hl : (g.players.erase sid).length = 1
          · simp only [he, Bool.false_eq_true, if_false, hl, if_true,
              List.mem_append] at hmem
            rcases hmem with (hmem | hmem) | hmem
            · rcases List.mem_map.mp hmem with ⟨m, _, heq⟩
              simp at heq
            · rcases List.mem_map.mp hmem with ⟨m, _, heq⟩
              simp at heq
            · exact ih r gid c ps hmem
          · simp only [he, Bool.false_eq_true, if_false, hl,
              List.append_nil, List.mem_append] at hmem
            rcases hmem with hmem | hmem
            · rcases List.mem_map.mp hmem with ⟨m, _, heq⟩
              simp at heq
            · exact ih r gid c ps hmem
      · simp only [disconnectGames, hg, if_false] at hmem
        exact ih r gid c ps hmem

theorem join_no_match_on_empty (st : ServerState) (a : SocketId)
    (hc : connected st a = true) (hq : st.waitingPlayers = []) :
    ∀ (r : SocketId) (gid : GameId) (c : Nat) (ps : List (SocketId × Team)),
      (r, SMsg.gameMatched gid c ps) ∉ (step st (Event.joinMatchmaking a)).2 := by
  intro r gid c ps hmem
  simp only [step, hc, if_true, stepJoinMatchmaking, matchPlayers, hq,
    List.nil_append] at hmem
  rcases List.mem_cons.mp hmem with heq | hmem
  · simp at heq
  · simp at hmem

theorem join_gameMatched_payload (st : ServerState) (a q : SocketId)
    (hc : connected st a = true) (hq : st.waitingPlayers = [q]) :
    ∀ (r p1 p2 : SocketId) (gid : GameId) (c : Nat),
      (r, SMsg.gameMatched gid c [(p1, Team.A), (p2, Team.B)])
          ∈ (step st (Event.joinMatchmaking a)).2 →
        p1 = q ∧ p2 = a := by
  intro r p1 p2 gid c hmem
  simp only [step, hc, if_true, stepJoinMatchmaking, matchPlayers, hq,
    List.cons_append, List.nil_append] at hmem
  rcases List.mem_cons.mp hmem with heq | hmem
  · simp at heq
  · rcases List.mem_map.mp hmem with ⟨m, _, heq⟩
    rw [Prod.mk.injEq] at heq
    have h2 := heq.2
    injection h2 with hgid hcd hps
    simp at hps
    exact ⟨hps.1.symm, hps.2.symm⟩

/-- C9 (amended): over the matchmaking-phase events (connect, enqueue,
cancel, disconnect) the queue never holds more than one connection between
handlers and a sole waiter always carries the provisional label `A`;
consequently, whenever a `gameMatched` confirming `[(p1, A), (p2, B)]` is
emitted with `p1 ≠ p2`, the stored team labels of `p1` and `p2` are `A`
and `B` respectively — the provisional parity labels agree with the
confirmed teams.  The degenerate self-pairing of a twice-enqueued
connection breaks the claim as literally stated (see the
counterexample). -/
theorem C9_team_labels_agree (st : ServerState) (e : Event)
    (hI : Inv9 st) (hE : LobbyEvent e) :
    Inv9 (step st e).1 ∧
    ∀ (r p1 p2 : SocketId) (gid : GameId) (c : Nat),
      (r, SMsg.gameMatched gid c [(p1, Team.A), (p2, Team.B)]) ∈ (step st e).2 →
      p1 ≠ p2 →
      teamOf (step st e).1 p1 = some Team.A ∧ teamOf (step st e).1 p2 = some Team.B := by
  obtain ⟨hlen, hsole⟩ := hI
  cases e with
  | connect sid =>
      constructor
      · by_cases hc : connected st sid = true
        · simp only [step, hc, if_true]
          exact ⟨hlen, hsole⟩
        · simp only [step, hc, Bool.false_eq_true, if_false]
          refine ⟨hlen, ?_⟩
          intro a ha
          obtain ⟨hteam, hconn⟩ := hsole a ha
          obtain ⟨da, hda⟩ := Option.isSome_iff_exists.mp hconn
          constructor
          · show ((alookup a (st.sockets ++ [(sid, SocketData.init)])).getD
                SocketData.init).team = some Team.A
            rw [alookup_append, hda]
            simpa [teamOf, hda] using hteam
          · show (alookup a (st.sockets ++ [(sid, SocketData.init)])).isSome = true
            rw [alookup_append, hda]
            rfl
      · intro r p1 p2 gid c hmem hne
        exact absurd hmem (List.not_mem_nil _)
  | joinMatchmaking sid =>
      by_cases hc : connected st sid = true
      · match hq : st.waitingPlayers with
        | [] =>
            constructor
            · have h1 := join_step_empty_queue st sid hc hq
              rw [h1]
              refine ⟨by simp, ?_⟩
              intro a ha
              simp at ha
              subst ha
              obtain ⟨ds, hds⟩ := Option.isSome_iff_exists.mp hc
              constructor
              · show ((alookup sid (aupdate sid _ st.sockets)).getD SocketData.init).team
                    = some Team.A
                rw [alookup_aupdate_self, hds]
                rfl
              · show (alookup sid (aupdate sid _ st.sockets)).isSome = true
                rw [isSome_alookup_aupdate]
                exact hc
            · intro r p1 p2 gid c hmem hne
              exact absurd hmem (join_no_match_on_empty st sid hc hq r gid c _)
        | [q] =>
            constructor
            · have h2 := join_step_single_queue st q sid hc hq
              rw [h2]
              refine ⟨by simp, ?_⟩
              intro a ha
              simp at ha
            · intro r p1 p2 gid c hmem hne
              obtain ⟨hp1, hp2⟩ :=
                join_gameMatched_payload st sid q hc hq r p1 p2 gid c hmem
              rw [hp1, hp2] at hne ⊢
              have h2 := join_step_single_queue st q sid hc hq
              obtain ⟨ds, hds⟩ := Option.isSome_iff_exists.mp hc
              obtain ⟨hteamq, -⟩ := hsole q hq
              constructor
              · rw [h2]
                show ((alookup q (aupdate sid _ st.sockets)).getD
                    SocketData.init).team = some Team.A
                rw [alookup_aupdate_ne _ _ _ _ (Ne.symm hne)]
                exact hteamq
              · rw [h2]
                show ((alookup sid (aupdate sid _ st.sockets)).getD
                    SocketData.init).team = some Team.B
                rw [alookup_aupdate_self, hds]
                rfl
        | q1 :: q2 :: rest =>
            rw [hq] at hlen
            simp at hlen
      · constructor
        · simp only [step, hc, Bool.false_eq_true, if_false]
          exact ⟨hlen, hsole⟩
        · intro r p1 p2 gid c hmem
          simp only [step, hc, Bool.false_eq_true, if_false] at hmem
          simp at hmem
  | cancelMatchmaking sid =>
      by_cases hc : connected st sid = true
      · constructor
        · simp only [step, hc, if_true, stepCancel]
          refine ⟨(List.erase_sublist _ _).length_le.trans hlen, ?_⟩
          intro a ha
          have ha2 : st.waitingPlayers.erase sid = [a] := ha
          cases hqs : st.waitingPlayers with
          | nil => rw [hqs] at ha2; simp at ha2
          | cons q qt =>
              cases qt with
              | nil =>
                  rw [hqs, List.erase_cons] at ha2
                  by_cases hq2 : q = sid
                  · simp [hq2] at ha2
                  · simp [hq2] at ha2
                    subst ha2
                    exact hsole q hqs
              | cons q2 qt2 =>
                  rw [hqs] at hlen
                  simp at hlen
        · intro r p1 p2 gid c hmem hne
          simp only [step, hc, if_true] at hmem
          exact absurd hmem (List.not_mem_nil _)
      · constructor
        · simp only [step, hc, Bool.false_eq_true, if_false]
          exact ⟨hlen, hsole⟩
        · intro r p1 p2 gid c hmem hne
          simp only [step, hc, Bool.false_eq_true, if_false] at hmem
          exact absurd hmem (List.not_mem_nil _)
  | disconnect sid =>
      by_cases hc : connected st sid = true
      · constructor
        · simp only [step, hc, if_true, stepDisconnect]
          refine ⟨(List.erase_sublist _ _).length_le.trans hlen, ?_⟩
          intro a ha
          have ha2 : st.waitingPlayers.erase sid = [a] := ha
          cases hqs : st.waitingPlayers with
          | nil => rw [hqs] at ha2; simp at ha2
          | cons q qt =>
              cases qt with
              | nil =>
                  rw [hqs, List.erase_cons] at ha2
                  by_cases hq2 : q = sid
                  · simp [hq2] at ha2
                  · simp [hq2] at ha2
                    subst ha2
                    obtain ⟨hteam, hconn⟩ := hsole q hqs
                    have hane : q ≠ sid := hq2
                    constructor
                    · show ((alookup q (st.sockets.filter
                          (fun p => decide (p.1 ≠ sid)))).getD SocketData.init).team
                            = some Team.A
                      rw [alookup_filter_ne _ _ _ hane]
                      exact hteam
                    · show (alookup q (st.sockets.filter
                          (fun p => decide (p.1 ≠ sid)))).isSome = true
                      rw [alookup_filter_ne _ _ _ hane]
                      exact hconn
              | cons q2 qt2 =>
                  rw [hqs] at hlen
                  simp at hlen
        · intro r p1 p2 gid c hmem hne
          simp only [step, hc, if_true, stepDisconnect] at hmem
          exact absurd hmem (gameMatched_not_in_disconnectGames sid _ st.activeGames r gid c _)
      · constructor
        · simp only [step, hc, Bool.false_eq_true, if_false]
          exact ⟨hlen, hsole⟩
        · intro r p1 p2 gid c hmem hne
          simp only [step, hc, Bool.false_eq_true, if_false] at hmem
          exact absurd hmem (List.not_mem_nil _)
  | playerJoin sid p rr => exact hE.elim
  | playerMove sid p rr => exact hE.elim
  | playerShoot sid p d v => exact hE.elim
  | playerHit sid t d => exact hE.elim
  | countdownFire gid => exact hE.elim

/-- Witness for C9: with connection 1 queued alone (provisional team `A`)
and connection 2 enqueueing, the `gameMatched` confirms 1 as `A` and 2 as
`B`, which is exactly what their stored labels say afterwards. -/
theorem C9_team_labels_agree_witness :
    teamOf (step twoConnOneQueued (Event.joinMatchmaking 2)).1 1 = some Team.A ∧
    teamOf (step twoConnOneQueued (Event.joinMatchmaking 2)).1 2 = some Team.B := by
  have hI : Inv9 twoConnOneQueued := by
    refine ⟨by decide, ?_⟩
    intro a ha
    rw [(by decide : twoConnOneQueued.waitingPlayers = [1])] at ha
    injection ha with h1 h2
    subst h1
    exact ⟨by decide, by decide⟩
  have hmain := C9_team_labels_agree twoConnOneQueued (Event.joinMatchmaking 2) hI trivial
  exact hmain.2 1 1 2 0 5 (by decide) (by decide)

/-- Counterexample to C9 as stated: connection 1 enqueues twice and is
paired with itself; the `gameMatched` notification confirms connection 1
as team `A` in its first slot, but the label stored on the connection at
(second) enqueue time is `B`. -/
theorem C9_counterexample :
    (1, SMsg.gameMatched 0 5 [(1, Team.A), (1, Team.B)])
        ∈ (step selfPairBase (Event.joinMatchmaking 1)).2 ∧
    teamOf (step selfPairBase (Event.joinMatchmaking 1)).1 1 = some Team.B := by
  decide

end FpsRelay
